import Mathlib

/-!
Verification of the TechLife LED controller (`src/techlife_led.py`).

The source is a single class `TechlifeLED` that encodes five commands
(power on, power off, set static color, animate, request update) into
fixed-size binary frames (`struct.Struct("<B6H3B")`, little-endian),
inserts an XOR checksum at byte offset 14, and hands the payload to an
MQTT transport.  The transport (paho-mqtt) and the color parser
(pydantic `Color`) are external collaborators: the transport is modelled
by returning the payload that would be published, and color resolution
by an `Option (Nat × Nat × Nat)` argument (`none` = the pydantic
`ValidationError` branch).

The source stores `_brightness` as a Python float (`value / 100.0`) and
computes the static-color channel levels with float arithmetic
(`int((x * 10000 * self._brightness) // 255)`).  Python floats are IEEE
binary64 values, i.e. exact dyadic rationals; we model them exactly as a
mantissa/exponent pair `PyFloat` with correctly-rounded
(round-to-nearest, ties-to-even) conversion `fl53`.  All values arising
here are far from the subnormal/overflow ranges, every intermediate
integer operand (`x * 10000 ≤ 2550000`, `100`) is exactly representable,
and Python's float floor-division by a small positive integer returns
the exact mathematical floor of the quotient of the operand values
(the quotient is a nonnegative integer ≤ 10000, hence exactly
representable), so the embedding below is an exact model of the source's
arithmetic on every reachable state.
-/

namespace TechlifeLED

/-- Round-to-nearest, ties-to-even, of the nonnegative rational `a / b`
(`b > 0`), returned as a natural number. -/
def roundNE (a b : Nat) : Nat :=
  if 2 * (a % b) < b then a / b
  else if b < 2 * (a % b) then a / b + 1
  else if (a / b) % 2 = 0 then a / b else a / b + 1

/-- Fueled base-2 logarithm: for `0 < n < 2 ^ fuel`,
`2 ^ log2f fuel n ≤ n < 2 ^ (log2f fuel n + 1)`. -/
def log2f : Nat → Nat → Nat
  | 0, _ => 0
  | fuel + 1, n => if n < 2 then 0 else log2f fuel (n / 2) + 1

/-- An IEEE binary64 value, represented exactly as the dyadic rational
`m * 2 ^ e` (all floats occurring in the source are nonnegative). -/
structure PyFloat where
  m : Nat
  e : Int
deriving DecidableEq

/-- The exact rational value of a `PyFloat`. -/
def PyFloat.val (x : PyFloat) : ℚ := (x.m : ℚ) * (2 : ℚ) ^ x.e

/-- The binade exponent of `a / b`: the unique `L` with
`2 ^ L ≤ a / b < 2 ^ (L + 1)` (for the input ranges used here). -/
def fl53E (a b : Nat) : Int := (log2f 300 (a * 2 ^ 120 / b) : Int) - 120

/-- The 53-bit significand of `a / b`: `a / b` scaled into
`[2^52, 2^53)` and rounded to nearest, ties to even. -/
def fl53M (a b : Nat) : Nat :=
  if 0 ≤ 52 - fl53E a b then roundNE (a * 2 ^ (52 - fl53E a b).toNat) b
  else roundNE a (b * 2 ^ (-(52 - fl53E a b)).toNat)

/-- Correctly-rounded (nearest, ties-to-even) binary64 value of the
nonnegative rational `a / b`.  Exact for all inputs in the normal range
(all inputs arising from the source are). -/
def fl53 (a b : Nat) : PyFloat :=
  if a = 0 then ⟨0, 0⟩ else ⟨fl53M a b, fl53E a b - 52⟩

/-- Python `A * x` for an `int` `A` and a float `x` (the int is converted
exactly — `A < 2^53` at every call site — and the product is correctly
rounded). -/
def fmulN (A : Nat) (x : PyFloat) : PyFloat :=
  if 0 ≤ x.e then fl53 (A * x.m * 2 ^ x.e.toNat) 1
  else fl53 (A * x.m) (2 ^ (-x.e).toNat)

/-- Python `int(x // d)` for a nonnegative float `x` and positive int `d`:
the exact floor of the quotient (exact for the ranges arising here,
where the floor is an integer ≤ 10000). -/
def ffloordivN (x : PyFloat) (d : Nat) : Nat :=
  if 0 ≤ x.e then x.m * 2 ^ x.e.toNat / d
  else x.m / (d * 2 ^ (-x.e).toNat)

/-- Python `int(round(x))` for a nonnegative float `x`: round to nearest
integer, ties to even. -/
def fround (x : PyFloat) : Nat :=
  if 0 ≤ x.e then x.m * 2 ^ x.e.toNat
  else roundNE x.m (2 ^ (-x.e).toNat)

/-- Little-endian encoding of a `u16` field (`struct` format `H`). -/
def le16 (x : Nat) : List Nat := [x % 256, x / 256 % 256]

/-- `TechlifeLED._FRAME.pack`, format `"<B6H3B"`: one `u8`, six
little-endian `u16`, three `u8` — 16 bytes.  `struct.pack` raises
`struct.error` when a field is out of range, modelled by `none`. -/
def FRAME_pack (c f1 f2 f3 f4 f5 f6 u7 u8 u9 : Nat) : Option (List Nat) :=
  if c ≤ 255 ∧ f1 ≤ 65535 ∧ f2 ≤ 65535 ∧ f3 ≤ 65535 ∧ f4 ≤ 65535 ∧
     f5 ≤ 65535 ∧ f6 ≤ 65535 ∧ u7 ≤ 255 ∧ u8 ≤ 255 ∧ u9 ≤ 255 then
    some ([c] ++ le16 f1 ++ le16 f2 ++ le16 f3 ++ le16 f4 ++ le16 f5 ++
          le16 f6 ++ [u7, u8, u9])
  else none

/-- `TechlifeLED._insert_checksum`: XOR bytes `payload[1:14]` (offsets 1–13),
mask to 8 bits (`& 0xFF`; on nonnegative values this is `% 256`), and
store the result at offset 14.  The source's `reduce` starts from the
first slice element; since `0` is the identity for XOR, folding from `0`
is the same function on the (always nonempty) slice. -/
def _insert_checksum (frame : List Nat) : List Nat :=
  frame.set 14 ((((frame.drop 1).take 13).foldl (fun x y => x ^^^ y) 0) % 256)

/-- `TechlifeLED._send_with_checksum`: the payload handed to
`client.publish`. -/
def _send_with_checksum (frame : List Nat) : List Nat :=
  _insert_checksum frame

/-- Decode the little-endian `u16` stored at byte offsets `i`, `i+1`. -/
def getU16 (f : List Nat) (i : Nat) : Nat :=
  f.getD i 0 + 256 * f.getD (i + 1) 0

/-- The controller state set up in `TechlifeLED.__init__` (transport
configuration is external).  `_brightness` is the stored Python float. -/
structure LEDState where
  _on : Bool
  _brightness : PyFloat
  _color : Nat × Nat × Nat
  _animation_speed : Nat

/-- `__init__`: `_on = False`, `_brightness = 1.0`,
`_color = Color("#ffffff")` (resolving to `(255, 255, 255)`),
`_animation_speed = 99`. -/
def init : LEDState :=
  { _on := false, _brightness := fl53 1 1, _color := (255, 255, 255),
    _animation_speed := 99 }

/-- `TechlifeLED.on`: build the Power-On frame, send it, then set
`_on = True` (the flag is assigned only after a successful send).
`on` is a reserved token in Lean, hence the name `powerOn`. -/
def powerOn (s : LEDState) : Option (LEDState × List Nat) := do
  let f ← FRAME_pack 0xFA 0x23 0 0 0 0 0 0 0 0xFB
  pure ({ s with _on := true }, _send_with_checksum f)

/-- `TechlifeLED.off`. -/
def off (s : LEDState) : Option (LEDState × List Nat) := do
  let f ← FRAME_pack 0xFA 0x24 0 0 0 0 0 0 0 0xFB
  pure ({ s with _on := false }, _send_with_checksum f)

/-- `TechlifeLED.is_on`. -/
def is_on (s : LEDState) : Bool := s._on

/-- `TechlifeLED._apply_static`: rescale each channel by
`int((x * 10000 * self._brightness) // 255)`, compute
`int(round(100 * self._brightness))`, pack and send.  Returns the
published payload (state is not modified). -/
def _apply_static (s : LEDState) : Option (List Nat) :=
  let level := fun x => ffloordivN (fmulN (x * 10000) s._brightness) 255
  let brightness_0_100 := fround (fmulN 100 s._brightness)
  (FRAME_pack 0x28 (level s._color.1) (level s._color.2.1) (level s._color.2.2)
      0 0 brightness_0_100 0x0F 0 0x29).map _send_with_checksum

/-- `TechlifeLED.set_color`: the external pydantic `Color` resolution is
abstracted as the `resolved` argument (`none` when `Color(color)` raises
`ValidationError`); in that case the method raises
`ValueError("Invalid color: ...")` before any state is modified.  On
success the resolved RGB triple is stored and `_apply_static` runs.
The returned state is the controller state after the call. -/
def set_color (s : LEDState) (resolved : Option (Nat × Nat × Nat))
    (input : String) : LEDState × Except String (Option (List Nat)) :=
  match resolved with
  | none => (s, .error ("Invalid color: " ++ input))
  | some c =>
      let s1 := { s with _color := c }
      (s1, .ok (_apply_static s1))

/-- `TechlifeLED.set_brightness`: clamp `max(0, min(100, int(value)))`,
store `value / 100.0` (a correctly-rounded binary64 division of exact
integers), then `_apply_static`. -/
def set_brightness (s : LEDState) (value : Int) : Option (LEDState × List Nat) :=
  let v := (max 0 (min 100 value)).toNat
  let s1 := { s with _brightness := fl53 v 100 }
  (_apply_static s1).map fun f => (s1, f)

/-- `TechlifeLED.get_brightness`: `int(round(self._brightness * 100))`. -/
def get_brightness (s : LEDState) : Nat :=
  fround (fmulN 100 s._brightness)

/-- `TechlifeLED.set_animation_speed`: clamp into `[1, 100]` and store;
no frame is built or sent (the return type carries no payload). -/
def set_animation_speed (s : LEDState) (speed : Int) : LEDState :=
  { s with _animation_speed := (max 1 (min 100 speed)).toNat }

/-- `TechlifeLED.animate`: when enabled, send the Animate frame with
`device_speed = (100 - self._animation_speed) * 255 // 100` (the stored
speed is always in `[1, 100]`, so `Nat` subtraction agrees with Python);
when disabled, fall back to `_apply_static`.  `_on` is never touched. -/
def animate (s : LEDState) (enabled : Bool) : Option (LEDState × List Nat) :=
  if enabled then
    let device_speed := (100 - s._animation_speed) * 255 / 100
    (FRAME_pack 0x66 0x25 device_speed 0x64 0 0 0 0 0 0x99).map
      fun f => (s, _send_with_checksum f)
  else
    (_apply_static s).map fun f => (s, f)

/-- `TechlifeLED.update`: send the Request-Update frame, then set
`_on = True`. -/
def update (s : LEDState) : Option (LEDState × List Nat) := do
  let f ← FRAME_pack 0xA9 0xF0 0 0 0 0 0 0 0 0x9A
  pure ({ s with _on := true }, _send_with_checksum f)

/-- Invariant satisfied by every reachable controller state: the stored
brightness is the binary64 value of `v / 100` for some integer percent
`v ∈ [0, 100]`, the color channels are 8-bit, and the animation speed is
in `[1, 100]`. -/
def Inv (s : LEDState) : Prop :=
  (∃ v, v ≤ 100 ∧ s._brightness = fl53 v 100) ∧
  s._color.1 ≤ 255 ∧ s._color.2.1 ≤ 255 ∧ s._color.2.2 ≤ 255 ∧
  1 ≤ s._animation_speed ∧ s._animation_speed ≤ 100

end TechlifeLED

namespace TechlifeLED

/-! ### Generic facts about the checksum insertion -/

/-- Folding XOR over the slice `(l.drop s).take c` is the indexed XOR of
the bytes at offsets `s, …, s + c - 1`. -/
theorem foldl_xor_slice (l : List Nat) :
    ∀ (c s acc : Nat), s + c ≤ l.length →
      ((l.drop s).take c).foldl (fun x y => x ^^^ y) acc =
        (List.range' s c).foldl (fun x i => x ^^^ l.getD i 0) acc := by
  intro c
  induction c with
  | zero => intro s acc _; simp
  | succ c ih =>
    intro s acc h
    have hs : s < l.length := by omega
    rw [List.drop_eq_getElem_cons hs, List.range'_succ]
    simp only [List.take_succ_cons, List.foldl_cons]
    have hgetD : l.getD s 0 = l[s] := by
      simp [List.getD_eq_getElem?_getD, List.getElem?_eq_getElem hs]
    rw [hgetD]
    exact ih (s + 1) _ (by omega)

/-- The checksum input slice ignores the byte at offset 14. -/
theorem checksum_slice_set14 (l : List Nat) (v : Nat) :
    (((l.set 14 v).drop 1).take 13) = ((l.drop 1).take 13) := by
  rw [List.drop_set]
  simp only [show ¬ (14 < 1) by omega, if_false]
  rw [List.set_take]
  exact List.set_eq_of_length_le (by simp)

end TechlifeLED

namespace TechlifeLED

/-- What `FRAME_pack` emits is always 16 bytes. -/
theorem FRAME_pack_length {c f1 f2 f3 f4 f5 f6 u7 u8 u9 : Nat} {f : List Nat}
    (h : FRAME_pack c f1 f2 f3 f4 f5 f6 u7 u8 u9 = some f) : f.length = 16 := by
  unfold FRAME_pack at h
  split at h
  · cases h; simp [le16]
  · cases h

/-- `_insert_checksum` preserves the byte count. -/
theorem insert_checksum_length (frame : List Nat) :
    (_insert_checksum frame).length = frame.length := by
  simp [_insert_checksum]

/-- C1: for every frame of at least 15 bytes, the checksum step writes at
offset 14 the XOR of the bytes at offsets 1 through 13 reduced mod 256;
it preserves the length, leaves bytes 0 through 13 and every byte past
offset 14 unchanged, and its output does not depend on the value (for
the frames of this codec, the command-specific tail copy of the second
`u8` slot) present at offset 14 before the step. -/
theorem c1_checksum (frame : List Nat) (v : Nat) (h : 15 ≤ frame.length) :
    (_insert_checksum frame).getD 14 0 =
      ((List.range' 1 13).foldl (fun x i => x ^^^ frame.getD i 0) 0) % 256 ∧
    (_insert_checksum frame).length = frame.length ∧
    (_insert_checksum frame).take 14 = frame.take 14 ∧
    (_insert_checksum frame).drop 15 = frame.drop 15 ∧
    _insert_checksum (frame.set 14 v) = _insert_checksum frame := by
  refine ⟨?_, insert_checksum_length frame, ?_, ?_, ?_⟩
  · rw [_insert_checksum, List.getD_eq_getElem?_getD,
      List.getElem?_set_self (by simpa using (by omega : 14 < frame.length))]
    simp only [Option.getD_some]
    rw [foldl_xor_slice frame 13 1 0 (by omega)]
  · rw [_insert_checksum, List.set_take]
    exact List.set_eq_of_length_le (by simp [List.length_take])
  · rw [_insert_checksum, List.drop_set]
    simp
  · rw [_insert_checksum, _insert_checksum, checksum_slice_set14, List.set_set]

/-- Witness for C1 at the assembled Power-On frame of the codec. -/
theorem c1_checksum_witness :
    (_insert_checksum [0xFA, 0x23, 0, 0, 0, 0, 0, 0, 0, 0, 0, 0, 0, 0, 0xFB, 0]).getD 14 0 =
      ((List.range' 1 13).foldl
        (fun x i => x ^^^ ([0xFA, 0x23, 0, 0, 0, 0, 0, 0, 0, 0, 0, 0, 0, 0, 0xFB, 0] : List Nat).getD i 0) 0) % 256 ∧
    (_insert_checksum [0xFA, 0x23, 0, 0, 0, 0, 0, 0, 0, 0, 0, 0, 0, 0, 0xFB, 0]).length =
      ([0xFA, 0x23, 0, 0, 0, 0, 0, 0, 0, 0, 0, 0, 0, 0, 0xFB, 0] : List Nat).length ∧
    (_insert_checksum [0xFA, 0x23, 0, 0, 0, 0, 0, 0, 0, 0, 0, 0, 0, 0, 0xFB, 0]).take 14 =
      ([0xFA, 0x23, 0, 0, 0, 0, 0, 0, 0, 0, 0, 0, 0, 0, 0xFB, 0] : List Nat).take 14 ∧
    (_insert_checksum [0xFA, 0x23, 0, 0, 0, 0, 0, 0, 0, 0, 0, 0, 0, 0, 0xFB, 0]).drop 15 =
      ([0xFA, 0x23, 0, 0, 0, 0, 0, 0, 0, 0, 0, 0, 0, 0, 0xFB, 0] : List Nat).drop 15 ∧
    _insert_checksum (([0xFA, 0x23, 0, 0, 0, 0, 0, 0, 0, 0, 0, 0, 0, 0, 0xFB, 0] : List Nat).set 14 0x29) =
      _insert_checksum [0xFA, 0x23, 0, 0, 0, 0, 0, 0, 0, 0, 0, 0, 0, 0, 0xFB, 0] :=
  c1_checksum [0xFA, 0x23, 0, 0, 0, 0, 0, 0, 0, 0, 0, 0, 0, 0, 0xFB, 0] 0x29 (by decide)

end TechlifeLED


namespace TechlifeLED

set_option maxRecDepth 4000 in
/-- C2, counterexample: the frame emitted by `powerOn` is not 15 bytes
long (the `"<B6H3B"` layout packs 1 + 6·2 + 3 = 16 bytes). -/
theorem c2_counterexample :
    ((powerOn init).map fun r => r.2.length) ≠ some 15 := by decide

/-- Every `_apply_static` payload is 16 bytes. -/
theorem apply_static_length {t : LEDState} {f : List Nat}
    (hf : _apply_static t = some f) : f.length = 16 := by
  simp only [_apply_static] at hf
  rcases Option.map_eq_some'.1 hf with ⟨g, hg, rfl⟩
  rw [_send_with_checksum, insert_checksum_length]
  exact FRAME_pack_length hg

/-- C2, amended: every frame any command hands to the transport is
exactly 16 bytes long. -/
theorem c2_frame_length (s : LEDState) (p : Int) (eb : Bool)
    (c : Nat × Nat × Nat) (inp : String) :
    (∀ r, powerOn s = some r → r.2.length = 16) ∧
    (∀ r, off s = some r → r.2.length = 16) ∧
    (∀ r, update s = some r → r.2.length = 16) ∧
    (∀ r, animate s eb = some r → r.2.length = 16) ∧
    (∀ r, set_brightness s p = some r → r.2.length = 16) ∧
    (∀ f, (set_color s (some c) inp).2 = .ok (some f) → f.length = 16) := by
  refine ⟨?_, ?_, ?_, ?_, ?_, ?_⟩
  · intro r hr; cases hr
    exact (insert_checksum_length _).trans (by decide)
  · intro r hr; cases hr
    exact (insert_checksum_length _).trans (by decide)
  · intro r hr; cases hr
    exact (insert_checksum_length _).trans (by decide)
  · intro r hr
    cases eb with
    | true =>
      simp only [animate, if_true] at hr
      rcases Option.map_eq_some'.1 hr with ⟨g, hg, rfl⟩
      rw [_send_with_checksum, insert_checksum_length]
      exact FRAME_pack_length hg
    | false =>
      simp only [animate, if_false] at hr
      rcases Option.map_eq_some'.1 hr with ⟨g, hg, rfl⟩
      exact apply_static_length hg
  · intro r hr
    simp only [set_brightness] at hr
    rcases Option.map_eq_some'.1 hr with ⟨g, hg, rfl⟩
    exact apply_static_length hg
  · intro f hf
    simp only [set_color, Except.ok.injEq] at hf
    exact apply_static_length hf

/-- Witness for C2's amended theorem: the `powerOn` frame at the initial
state has 16 bytes. -/
theorem c2_frame_length_witness :
    (({ init with _on := true },
        [0xFA, 0x23, 0, 0, 0, 0, 0, 0, 0, 0, 0, 0, 0, 0, 0x23, 0xFB]) :
        LEDState × List Nat).2.length = 16 :=
  (c2_frame_length init 0 true (0, 0, 0) "").1
    ({ init with _on := true },
      [0xFA, 0x23, 0, 0, 0, 0, 0, 0, 0, 0, 0, 0, 0, 0, 0x23, 0xFB]) rfl

/-- C10: the Power-On, Power-Off and Request-Update frames are constant
byte sequences, independent of the controller state; all their
checksum-covered bytes except the sub-command byte at offset 1 are zero,
so the transmitted byte at offset 14 equals that sub-command byte
(0x23, 0x24 and 0xF0 respectively). -/
theorem c10_constant_frames (s : LEDState) :
    powerOn s = some ({ s with _on := true },
      [0xFA, 0x23, 0, 0, 0, 0, 0, 0, 0, 0, 0, 0, 0, 0, 0x23, 0xFB]) ∧
    off s = some ({ s with _on := false },
      [0xFA, 0x24, 0, 0, 0, 0, 0, 0, 0, 0, 0, 0, 0, 0, 0x24, 0xFB]) ∧
    update s = some ({ s with _on := true },
      [0xA9, 0xF0, 0, 0, 0, 0, 0, 0, 0, 0, 0, 0, 0, 0, 0xF0, 0x9A]) :=
  ⟨rfl, rfl, rfl⟩

end TechlifeLED

namespace TechlifeLED

/-- The Animate frame carries
`device_speed = (100 - self._animation_speed) * 255 // 100` in its second
`u16` field (byte offsets 3–4 of the transmitted payload). -/
theorem animate_speed_frame (s : LEDState) :
    ((animate s true).map fun r => getU16 r.2 3) =
      some ((100 - s._animation_speed) * 255 / 100) := by
  have h1 : (100 - s._animation_speed) * 255 ≤ 100 * 255 :=
    Nat.mul_le_mul_right 255 (Nat.sub_le 100 _)
  have hd : (100 - s._animation_speed) * 255 / 100 ≤ 255 := by omega
  have hc : (0x66 : Nat) ≤ 255 ∧ (0x25 : Nat) ≤ 65535 ∧
      (100 - s._animation_speed) * 255 / 100 ≤ 65535 ∧ (0x64 : Nat) ≤ 65535 ∧
      (0 : Nat) ≤ 65535 ∧ (0 : Nat) ≤ 65535 ∧ (0 : Nat) ≤ 65535 ∧
      (0 : Nat) ≤ 255 ∧ (0 : Nat) ≤ 255 ∧ (0x99 : Nat) ≤ 255 :=
    ⟨by norm_num, by norm_num, by omega, by norm_num, by norm_num,
      by norm_num, by norm_num, by norm_num, by norm_num, by norm_num⟩
  simp only [animate, if_true]
  rw [FRAME_pack, if_pos hc]
  simp only [Option.map_some']
  refine congrArg some ?_
  show (100 - s._animation_speed) * 255 / 100 % 256 +
      256 * ((100 - s._animation_speed) * 255 / 100 / 256 % 256) =
    (100 - s._animation_speed) * 255 / 100
  omega

/-- C4: `animate(true)` emits a frame whose second `u16` field is
`(100 - storedSpeed) * 255 / 100`; stored speed 100 yields 0 and stored
speed 1 yields 252. -/
theorem c4_animate_inversion (s : LEDState) :
    ((animate s true).map fun r => getU16 r.2 3) =
      some ((100 - s._animation_speed) * 255 / 100) ∧
    ((animate (set_animation_speed s 100) true).map fun r => getU16 r.2 3) =
      some 0 ∧
    ((animate (set_animation_speed s 1) true).map fun r => getU16 r.2 3) =
      some 252 := by
  refine ⟨animate_speed_frame s, ?_, ?_⟩
  · have h := animate_speed_frame (set_animation_speed s 100)
    rw [show (set_animation_speed s 100)._animation_speed = 100 from rfl] at h
    exact h.trans (by norm_num)
  · have h := animate_speed_frame (set_animation_speed s 1)
    rw [show (set_animation_speed s 1)._animation_speed = 1 from rfl] at h
    exact h.trans (by norm_num)

/-- C6: `set_animation_speed` clamps its integer argument into `[1, 100]`
(0 stores 1, 150 stores 100), changes no other state field, sends no
frame (its return type carries no payload), and the stored value is the
one the next `animate(true)` encodes. -/
theorem c6_speed_clamp (s : LEDState) (sp : Int) :
    ((set_animation_speed s sp)._animation_speed : Int) = max 1 (min 100 sp) ∧
    (set_animation_speed s 0)._animation_speed = 1 ∧
    (set_animation_speed s 150)._animation_speed = 100 ∧
    (set_animation_speed s sp)._on = s._on ∧
    (set_animation_speed s sp)._brightness = s._brightness ∧
    (set_animation_speed s sp)._color = s._color ∧
    ((animate (set_animation_speed s sp) true).map fun r => getU16 r.2 3) =
      some ((100 - (set_animation_speed s sp)._animation_speed) * 255 / 100) := by
  refine ⟨?_, rfl, rfl, rfl, rfl, rfl, animate_speed_frame _⟩
  show (((max 1 (min 100 sp)).toNat : Nat) : Int) = max 1 (min 100 sp)
  omega

/-- C7: the power flag read by `is_on` is set to true by `powerOn` and
`update`, to false by `off`, and is never changed by `set_color`,
`set_brightness`, `set_animation_speed` or `animate`. -/
theorem c7_power_independence (s : LEDState) (p sp : Int) (eb : Bool)
    (res : Option (Nat × Nat × Nat)) (inp : String) :
    is_on (set_animation_speed s sp) = is_on s ∧
    is_on (set_color s res inp).1 = is_on s ∧
    (∀ r, set_brightness s p = some r → is_on r.1 = is_on s) ∧
    (∀ r, animate s eb = some r → is_on r.1 = is_on s) ∧
    (∀ r, powerOn s = some r → is_on r.1 = true) ∧
    (∀ r, off s = some r → is_on r.1 = false) ∧
    (∀ r, update s = some r → is_on r.1 = true) := by
  refine ⟨rfl, ?_, ?_, ?_, ?_, ?_, ?_⟩
  · cases res <;> rfl
  · intro r hr
    simp only [set_brightness] at hr
    rcases Option.map_eq_some'.1 hr with ⟨g, hg, rfl⟩
    rfl
  · intro r hr
    cases eb with
    | true =>
      simp only [animate, if_true] at hr
      rcases Option.map_eq_some'.1 hr with ⟨g, hg, rfl⟩
      rfl
    | false =>
      simp only [animate, if_false] at hr
      rcases Option.map_eq_some'.1 hr with ⟨g, hg, rfl⟩
      rfl
  · intro r hr; cases hr; rfl
  · intro r hr; cases hr; rfl
  · intro r hr; cases hr; rfl

/-- Witness for C7: after `powerOn` from the initial state the flag
reads true. -/
theorem c7_power_independence_witness :
    is_on (({ init with _on := true },
        [0xFA, 0x23, 0, 0, 0, 0, 0, 0, 0, 0, 0, 0, 0, 0, 0x23, 0xFB]) :
        LEDState × List Nat).1 = true :=
  (c7_power_independence init 0 0 true none "").2.2.2.2.1
    ({ init with _on := true },
      [0xFA, 0x23, 0, 0, 0, 0, 0, 0, 0, 0, 0, 0, 0, 0, 0x23, 0xFB]) rfl

/-- C8: when color resolution fails, `set_color` raises
`ValueError("Invalid color: ...")` (wrapping the pydantic
`ValidationError`), the state — including color and brightness — is
unchanged, and no frame payload is produced; when resolution succeeds
the call never raises. -/
theorem c8_invalid_color (s : LEDState) (inp : String) :
    (set_color s none inp).1 = s ∧
    (set_color s none inp).2 = .error ("Invalid color: " ++ inp) ∧
    (∀ c, ∃ o, (set_color s (some c) inp).2 = .ok o) :=
  ⟨rfl, rfl, fun _ => ⟨_, rfl⟩⟩

end TechlifeLED

namespace TechlifeLED

/-! ### Exactness of the binary64 model -/

/-- `roundNE a b` is within half a unit of `a / b`:
`2a - b ≤ 2b·roundNE a b ≤ 2a + b` (subtraction-free form). -/
theorem roundNE_bounds (a b : Nat) (hb : 0 < b) :
    2 * a ≤ 2 * (b * roundNE a b) + b ∧ 2 * (b * roundNE a b) ≤ 2 * a + b := by
  have hdm := Nat.div_add_mod a b
  have hmod := Nat.mod_lt a hb
  unfold roundNE
  split_ifs with h1 h2 h3 <;>
    · have hx : b * (a / b + 1) = b * (a / b) + b := by ring
      try rw [hx]
      generalize hQ : b * (a / b) = Q at hdm ⊢
      omega

/-- `roundNE` differs from the true quotient by at most `1/2`. -/
theorem roundNE_err (a b : Nat) (hb : 0 < b) :
    |(roundNE a b : ℚ) - (a : ℚ) / b| ≤ 1 / 2 := by
  obtain ⟨h1, h2⟩ := roundNE_bounds a b hb
  have hbq : (0 : ℚ) < b := by exact_mod_cast hb
  have h1q : (2 * a : ℚ) ≤ 2 * (b * roundNE a b) + b := by exact_mod_cast h1
  have h2q : (2 * (b * roundNE a b) : ℚ) ≤ 2 * a + b := by exact_mod_cast h2
  rw [abs_le]
  constructor
  · have h3 : (a : ℚ) / b ≤ (roundNE a b : ℚ) + 1 / 2 := by
      rw [div_le_iff₀ hbq]
      nlinarith
    linarith
  · have h3 : (roundNE a b : ℚ) - 1 / 2 ≤ (a : ℚ) / b := by
      rw [le_div_iff₀ hbq]
      nlinarith
    linarith

end TechlifeLED

namespace TechlifeLED

/-- A natural number strictly within `1/2` of `a / b` is `roundNE a b`. -/
theorem roundNE_eq_of_close (a b v : Nat) (hb : 0 < b)
    (h : |(v : ℚ) - (a : ℚ) / b| < 1 / 2) : roundNE a b = v := by
  have h1 := roundNE_err a b hb
  have h2 : |(roundNE a b : ℚ) - (v : ℚ)| < 1 := by
    calc |(roundNE a b : ℚ) - (v : ℚ)|
        ≤ |(roundNE a b : ℚ) - (a : ℚ) / b| + |(a : ℚ) / b - (v : ℚ)| :=
          abs_sub_le _ _ _
      _ < 1 := by rw [abs_sub_comm ((a : ℚ) / b) (v : ℚ)]; linarith
  have h3 : |((roundNE a b : ℤ) - (v : ℤ) : ℤ)| < 1 := by
    have h4 : |(((roundNE a b : ℤ) - (v : ℤ) : ℤ) : ℚ)| < 1 := by push_cast; exact h2
    rw [← Int.cast_abs] at h4
    exact_mod_cast h4
  have h5 := abs_lt.1 h3
  omega

/-- Correctness of the fueled base-2 logarithm. -/
theorem log2f_spec : ∀ (fuel n : Nat), 0 < n → n < 2 ^ fuel →
    2 ^ log2f fuel n ≤ n ∧ n < 2 ^ (log2f fuel n + 1) := by
  intro fuel
  induction fuel with
  | zero =>
    intro n h1 h2
    simp only [pow_zero] at h2
    omega
  | succ fuel ih =>
    intro n h1 h2
    by_cases hn : n < 2
    · simp only [log2f, if_pos hn]
      omega
    · have hpos : 0 < n / 2 := by omega
      have hlt : n / 2 < 2 ^ fuel := by
        have hp : (2 : Nat) ^ (fuel + 1) = 2 * 2 ^ fuel := by ring
        omega
      obtain ⟨ih1, ih2⟩ := ih (n / 2) hpos hlt
      simp only [log2f, if_neg hn]
      constructor
      · have hp : (2 : Nat) ^ (log2f fuel (n / 2) + 1) =
            2 * 2 ^ log2f fuel (n / 2) := by ring
        omega
      · have hp : (2 : Nat) ^ (log2f fuel (n / 2) + 1 + 1) =
            2 * 2 ^ (log2f fuel (n / 2) + 1) := by ring
        omega

end TechlifeLED

namespace TechlifeLED

/-- The significand approximates `(a / b) · 2 ^ (52 - fl53E a b)` to
within half a unit. -/
theorem fl53M_err (a b : Nat) (hb : 0 < b) :
    |(fl53M a b : ℚ) - ((a : ℚ) / b) * (2 : ℚ) ^ (52 - fl53E a b)| ≤ 1 / 2 := by
  by_cases hk : 0 ≤ 52 - fl53E a b
  · rw [fl53M, if_pos hk]
    set K := (52 - fl53E a b).toNat with hK
    have h := roundNE_err (a * 2 ^ K) b hb
    have hKz : (52 - fl53E a b) = (K : ℤ) := (Int.toNat_of_nonneg hk).symm
    have hcast : ((a * 2 ^ K : ℕ) : ℚ) / b =
        ((a : ℚ) / b) * (2 : ℚ) ^ (52 - fl53E a b) := by
      rw [hKz, zpow_natCast]
      push_cast
      ring
    rw [hcast] at h
    exact h
  · rw [fl53M, if_neg hk]
    set J := (-(52 - fl53E a b)).toNat with hJ
    have hbB : 0 < b * 2 ^ J := by positivity
    have h := roundNE_err a (b * 2 ^ J) hbB
    have hJz : (J : ℤ) = -(52 - fl53E a b) := Int.toNat_of_nonneg (by omega)
    have h2 : ((2 : ℚ) ^ (J : ℕ))⁻¹ = (2 : ℚ) ^ (52 - fl53E a b) := by
      rw [show (52 - fl53E a b) = -(J : ℤ) by omega, zpow_neg, zpow_natCast]
    have hcast : (a : ℚ) / ((b * 2 ^ J : ℕ) : ℚ) =
        ((a : ℚ) / b) * (2 : ℚ) ^ (52 - fl53E a b) := by
      calc (a : ℚ) / ((b * 2 ^ J : ℕ) : ℚ)
          = (a : ℚ) / b / ((2 : ℚ) ^ (J : ℕ)) := by push_cast; rw [div_div]
        _ = ((a : ℚ) / b) * ((2 : ℚ) ^ (J : ℕ))⁻¹ := div_eq_mul_inv _ _
        _ = ((a : ℚ) / b) * (2 : ℚ) ^ (52 - fl53E a b) := by rw [h2]
    rw [hcast] at h
    exact h

end TechlifeLED

namespace TechlifeLED

/-- Rational bounds for natural floor division. -/
theorem Nat_div_bounds (A b : Nat) (hb : 0 < b) :
    ((A / b : ℕ) : ℚ) ≤ (A : ℚ) / b ∧ (A : ℚ) / b < ((A / b : ℕ) : ℚ) + 1 := by
  have hbq : (0 : ℚ) < b := by exact_mod_cast hb
  refine ⟨Nat.cast_div_le, ?_⟩
  rw [div_lt_iff₀ hbq]
  have h1 : A < b * (A / b) + b := by
    have hdm := Nat.div_add_mod A b
    have hmod := Nat.mod_lt A hb
    generalize hQ : b * (A / b) = Q at hdm ⊢
    omega
  calc (A : ℚ) < ((b * (A / b) + b : ℕ) : ℚ) := by exact_mod_cast h1
    _ = (((A / b : ℕ) : ℚ) + 1) * b := by push_cast; ring

set_option maxRecDepth 8000 in
/-- Specification of `fl53`: the rounded value is within one part in
`2^53` of `a / b`, its significand fits in 53 bits, and its exponent is
the binade of `a / b`.  The side conditions bound the input into the
range where 300 units of `log2f` fuel and the `2^120` scaling are
sufficient (every call site is far inside it). -/
theorem fl53_spec (a b : Nat) (ha : 0 < a) (hb : 0 < b)
    (hlow : b ≤ a * 2 ^ 120) (hhigh : a * 2 ^ 120 / b < 2 ^ 300) :
    ((a : ℚ) / b) * (1 - (2 : ℚ) ^ (-53 : ℤ)) ≤ (fl53 a b).val ∧
    (fl53 a b).val ≤ ((a : ℚ) / b) * (1 + (2 : ℚ) ^ (-53 : ℤ)) ∧
    (fl53 a b).m ≤ 2 ^ 53 ∧
    (2 : ℚ) ^ ((fl53 a b).e + 52) ≤ (a : ℚ) / b ∧
    (a : ℚ) / b < (2 : ℚ) ^ ((fl53 a b).e + 53) := by
  have hbq : (0 : ℚ) < b := by exact_mod_cast hb
  have haq : (0 : ℚ) < a := by exact_mod_cast ha
  have hq : (0 : ℚ) < (a : ℚ) / b := div_pos haq hbq
  have hN1 : 1 ≤ a * 2 ^ 120 / b := (Nat.one_le_div_iff hb).2 hlow
  obtain ⟨hNl, hNu⟩ := log2f_spec 300 (a * 2 ^ 120 / b) (by omega) hhigh
  obtain ⟨hq1, hq2⟩ := Nat_div_bounds (a * 2 ^ 120) b hb
  have hcast120 : ((a * 2 ^ 120 : ℕ) : ℚ) / b = (a : ℚ) / b * 2 ^ (120 : ℕ) := by
    push_cast; ring
  have key1 : (2 : ℚ) ^ log2f 300 (a * 2 ^ 120 / b) ≤
      (a : ℚ) / b * 2 ^ (120 : ℕ) := by
    have hc : ((2 ^ log2f 300 (a * 2 ^ 120 / b) : ℕ) : ℚ) ≤
        ((a * 2 ^ 120 / b : ℕ) : ℚ) := by exact_mod_cast hNl
    rw [← hcast120]
    refine le_trans ?_ hq1
    push_cast at hc
    exact hc
  have key2 : (a : ℚ) / b * 2 ^ (120 : ℕ) <
      (2 : ℚ) ^ (log2f 300 (a * 2 ^ 120 / b) + 1) := by
    have hc : ((a * 2 ^ 120 / b : ℕ) : ℚ) + 1 ≤
        ((2 ^ (log2f 300 (a * 2 ^ 120 / b) + 1) : ℕ) : ℚ) := by
      exact_mod_cast hNu
    rw [← hcast120]
    refine lt_of_lt_of_le hq2 ?_
    push_cast at hc
    exact hc
  have h120 : (0 : ℚ) < 2 ^ (120 : ℕ) := by positivity
  have hzl1 : (2 : ℚ) ^ fl53E a b * 2 ^ (120 : ℕ) =
      (2 : ℚ) ^ log2f 300 (a * 2 ^ 120 / b) := by
    rw [← zpow_natCast (2 : ℚ) 120, ← zpow_add₀ (two_ne_zero : (2 : ℚ) ≠ 0),
      ← zpow_natCast (2 : ℚ) (log2f 300 (a * 2 ^ 120 / b))]
    congr 1
    rw [fl53E]
    push_cast
    ring
  have hzl2 : (2 : ℚ) ^ (fl53E a b + 1) * 2 ^ (120 : ℕ) =
      (2 : ℚ) ^ (log2f 300 (a * 2 ^ 120 / b) + 1) := by
    rw [← zpow_natCast (2 : ℚ) 120, ← zpow_add₀ (two_ne_zero : (2 : ℚ) ≠ 0),
      ← zpow_natCast (2 : ℚ) (log2f 300 (a * 2 ^ 120 / b) + 1)]
    congr 1
    rw [fl53E]
    push_cast
    ring
  have binade1 : (2 : ℚ) ^ fl53E a b ≤ (a : ℚ) / b := by
    rw [← mul_le_mul_right h120, hzl1]
    exact key1
  have binade2 : (a : ℚ) / b < (2 : ℚ) ^ (fl53E a b + 1) := by
    rw [← mul_lt_mul_right h120, hzl2]
    exact key2
  have hM := fl53M_err a b hb
  have hne : ¬ a = 0 := by omega
  have hval : (fl53 a b).val = (fl53M a b : ℚ) * 2 ^ (fl53E a b - 52) := by
    rw [fl53, if_neg hne, PyFloat.val]
  have hme : (fl53 a b).m = fl53M a b := by rw [fl53, if_neg hne]
  have hee : (fl53 a b).e = fl53E a b - 52 := by rw [fl53, if_neg hne]
  have hsplit : (2 : ℚ) ^ (52 - fl53E a b) * 2 ^ (fl53E a b - 52) = 1 := by
    rw [← zpow_add₀ (two_ne_zero : (2 : ℚ) ≠ 0)]
    norm_num
  have hEpos : (0 : ℚ) < 2 ^ (fl53E a b - 52) := zpow_pos (by norm_num) _
  have herr : |(fl53 a b).val - (a : ℚ) / b| ≤ 1 / 2 * 2 ^ (fl53E a b - 52) := by
    have h1 : (fl53 a b).val - (a : ℚ) / b =
        ((fl53M a b : ℚ) - (a : ℚ) / b * 2 ^ (52 - fl53E a b)) *
          2 ^ (fl53E a b - 52) := by
      rw [hval, sub_mul, mul_assoc, hsplit, mul_one]
    rw [h1, abs_mul, abs_of_pos hEpos]
    exact mul_le_mul_of_nonneg_right hM (le_of_lt hEpos)
  have hb53 : (1 : ℚ) / 2 * 2 ^ (fl53E a b - 52) ≤
      (a : ℚ) / b * 2 ^ (-53 : ℤ) := by
    have h1 : (1 : ℚ) / 2 * 2 ^ (fl53E a b - 52) =
        2 ^ fl53E a b * 2 ^ (-53 : ℤ) := by
      rw [show (1 : ℚ) / 2 = (2 : ℚ) ^ (-1 : ℤ) by norm_num,
        ← zpow_add₀ (two_ne_zero : (2 : ℚ) ≠ 0),
        ← zpow_add₀ (two_ne_zero : (2 : ℚ) ≠ 0)]
      congr 1
      ring
    rw [h1]
    exact mul_le_mul_of_nonneg_right binade1
      (le_of_lt (zpow_pos (by norm_num) _))
  have herr2 : |(fl53 a b).val - (a : ℚ) / b| ≤ (a : ℚ) / b * 2 ^ (-53 : ℤ) :=
    le_trans herr hb53
  obtain ⟨hlo, hhi⟩ := abs_le.1 herr2
  have hmub : fl53M a b ≤ 2 ^ 53 := by
    have h1 : (fl53M a b : ℚ) ≤ (a : ℚ) / b * 2 ^ (52 - fl53E a b) + 1 / 2 := by
      have := abs_le.1 hM
      linarith [this.2]
    have h2 : (a : ℚ) / b * 2 ^ (52 - fl53E a b) <
        (2 : ℚ) ^ (fl53E a b + 1) * 2 ^ (52 - fl53E a b) :=
      (mul_lt_mul_right (zpow_pos (by norm_num) _)).2 binade2
    have h3 : (2 : ℚ) ^ (fl53E a b + 1) * 2 ^ (52 - fl53E a b) =
        ((2 ^ 53 : ℕ) : ℚ) := by
      rw [← zpow_add₀ (two_ne_zero : (2 : ℚ) ≠ 0),
        show fl53E a b + 1 + (52 - fl53E a b) = (53 : ℤ) by ring]
      norm_num
    have h4 : (fl53M a b : ℚ) < ((2 ^ 53 : ℕ) : ℚ) + 1 := by
      rw [h3] at h2
      exact lt_of_le_of_lt h1 (add_lt_add_of_lt_of_le h2 (by norm_num))
    have h5 : fl53M a b < 2 ^ 53 + 1 := by exact_mod_cast h4
    omega
  refine ⟨?_, ?_, ?_, ?_, ?_⟩
  · have hexp : (a : ℚ) / b * (1 - 2 ^ (-53 : ℤ)) =
        (a : ℚ) / b - (a : ℚ) / b * 2 ^ (-53 : ℤ) := by ring
    linarith
  · have hexp : (a : ℚ) / b * (1 + 2 ^ (-53 : ℤ)) =
        (a : ℚ) / b + (a : ℚ) / b * 2 ^ (-53 : ℤ) := by ring
    linarith
  · rw [hme]; exact hmub
  · rw [hee, show fl53E a b - 52 + 52 = fl53E a b by ring]
    exact binade1
  · rw [hee, show fl53E a b - 52 + 53 = fl53E a b + 1 by ring]
    exact binade2

end TechlifeLED

namespace TechlifeLED

/-- Value of a `PyFloat` with nonnegative exponent, as a natural number. -/
theorem val_nonneg_exp (x : PyFloat) (he : 0 ≤ x.e) :
    x.val = ((x.m * 2 ^ x.e.toNat : ℕ) : ℚ) := by
  obtain ⟨n, hn⟩ : ∃ n : ℕ, x.e = (n : ℤ) := ⟨x.e.toNat, (Int.toNat_of_nonneg he).symm⟩
  rw [PyFloat.val, hn, Int.toNat_natCast, zpow_natCast]
  push_cast
  ring

/-- Value of a `PyFloat` with negative exponent, as a quotient. -/
theorem val_neg_exp (x : PyFloat) (he : ¬ 0 ≤ x.e) :
    x.val = (x.m : ℚ) / ((2 ^ (-x.e).toNat : ℕ) : ℚ) := by
  obtain ⟨n, hn⟩ : ∃ n : ℕ, x.e = -(n : ℤ) := by
    refine ⟨(-x.e).toNat, ?_⟩
    have := Int.toNat_of_nonneg (by omega : 0 ≤ -x.e)
    omega
  rw [PyFloat.val, hn, neg_neg, Int.toNat_natCast, zpow_neg, zpow_natCast]
  push_cast
  rw [div_eq_mul_inv]

/-- `fround` returns any natural strictly within `1/2` of the value. -/
theorem fround_eq_of_close (x : PyFloat) (v : Nat)
    (h : |x.val - (v : ℚ)| < 1 / 2) : fround x = v := by
  rw [fround]
  by_cases he : 0 ≤ x.e
  · rw [if_pos he]
    rw [val_nonneg_exp x he] at h
    have h2 : |((x.m * 2 ^ x.e.toNat : ℕ) : ℤ) - (v : ℤ)| < 1 := by
      have h3 : |((((x.m * 2 ^ x.e.toNat : ℕ) : ℤ) - (v : ℤ) : ℤ) : ℚ)| < 1 := by
        push_cast
        push_cast at h
        exact lt_trans h (by norm_num)
      rw [← Int.cast_abs] at h3
      exact_mod_cast h3
    have h4 := abs_lt.1 h2
    omega
  · rw [if_neg he]
    apply roundNE_eq_of_close _ _ _ (by positivity)
    rw [val_neg_exp x he] at h
    rw [abs_sub_comm] at h
    exact h

/-- `ffloordivN` is bounded above by any `k` with `x.val < d (k + 1)`. -/
theorem ffloordivN_le (x : PyFloat) (d k : Nat) (hd : 0 < d)
    (h : x.val < (d : ℚ) * ((k : ℚ) + 1)) : ffloordivN x d ≤ k := by
  rw [ffloordivN]
  by_cases he : 0 ≤ x.e
  · rw [if_pos he]
    rw [val_nonneg_exp x he] at h
    have h1 : x.m * 2 ^ x.e.toNat < d * (k + 1) := by exact_mod_cast h
    refine Nat.lt_succ_iff.1 ((Nat.div_lt_iff_lt_mul hd).2 ?_)
    rw [show (k + 1) * d = d * (k + 1) from Nat.mul_comm _ _]
    exact h1
  · rw [if_neg he]
    rw [val_neg_exp x he] at h
    have hp : (0 : ℚ) < ((2 ^ (-x.e).toNat : ℕ) : ℚ) := by positivity
    rw [div_lt_iff₀ hp] at h
    have h1 : x.m < d * (k + 1) * 2 ^ (-x.e).toNat := by exact_mod_cast h
    refine Nat.lt_succ_iff.1
      ((Nat.div_lt_iff_lt_mul (by positivity : 0 < d * 2 ^ (-x.e).toNat)).2 ?_)
    rw [show (k + 1) * (d * 2 ^ (-x.e).toNat) = d * (k + 1) * 2 ^ (-x.e).toNat
      from by ring]
    exact h1

/-- `ffloordivN` is bounded below by any `k` with `d k ≤ x.val`. -/
theorem le_ffloordivN (x : PyFloat) (d k : Nat) (hd : 0 < d)
    (h : (d : ℚ) * (k : ℚ) ≤ x.val) : k ≤ ffloordivN x d := by
  rw [ffloordivN]
  by_cases he : 0 ≤ x.e
  · rw [if_pos he]
    rw [val_nonneg_exp x he] at h
    have h1 : d * k ≤ x.m * 2 ^ x.e.toNat := by exact_mod_cast h
    refine (Nat.le_div_iff_mul_le hd).2 ?_
    rw [show k * d = d * k from Nat.mul_comm _ _]
    exact h1
  · rw [if_neg he]
    rw [val_neg_exp x he] at h
    have hp : (0 : ℚ) < ((2 ^ (-x.e).toNat : ℕ) : ℚ) := by positivity
    rw [le_div_iff₀ hp] at h
    have h1 : d * k * 2 ^ (-x.e).toNat ≤ x.m := by exact_mod_cast h
    refine (Nat.le_div_iff_mul_le (by positivity : 0 < d * 2 ^ (-x.e).toNat)).2 ?_
    rw [show k * (d * 2 ^ (-x.e).toNat) = d * k * 2 ^ (-x.e).toNat from by ring]
    exact h1

end TechlifeLED

namespace TechlifeLED

set_option maxRecDepth 8000 in
/-- Relative-error specification of the float product `fmulN`: for an
exactly-representable integer factor and an operand in the size range
used by the codec, the product is within one part in `2^53` of the exact
product. -/
theorem fmulN_spec (A : Nat) (x : PyFloat) (hA : 0 < A) (hA2 : A ≤ 2 ^ 30)
    (hm : 0 < x.m) (hm2 : x.m ≤ 2 ^ 53) (he1 : -70 ≤ x.e) (he2 : x.e ≤ 30) :
    (A : ℚ) * x.val * (1 - (2 : ℚ) ^ (-53 : ℤ)) ≤ (fmulN A x).val ∧
    (fmulN A x).val ≤ (A : ℚ) * x.val * (1 + (2 : ℚ) ^ (-53 : ℤ)) := by
  by_cases he : 0 ≤ x.e
  · rw [fmulN, if_pos he]
    have hE : x.e.toNat ≤ 30 := by omega
    have hpow : (2 : ℕ) ^ x.e.toNat ≤ 2 ^ 30 := Nat.pow_le_pow_right (by norm_num) hE
    have ha : 0 < A * x.m * 2 ^ x.e.toNat := by positivity
    have hsz : A * x.m * 2 ^ x.e.toNat ≤ 2 ^ 30 * 2 ^ 53 * 2 ^ 30 :=
      Nat.mul_le_mul (Nat.mul_le_mul hA2 hm2) hpow
    have hlow : 1 ≤ A * x.m * 2 ^ x.e.toNat * 2 ^ 120 := by
      have hp : 0 < A * x.m * 2 ^ x.e.toNat * 2 ^ 120 := by positivity
      omega
    have hhigh : A * x.m * 2 ^ x.e.toNat * 2 ^ 120 / 1 < 2 ^ 300 := by
      have h1 : (2 : ℕ) ^ 30 * 2 ^ 53 * 2 ^ 30 * 2 ^ 120 < 2 ^ 300 := by norm_num
      have h2 : A * x.m * 2 ^ x.e.toNat * 2 ^ 120 ≤
          2 ^ 30 * 2 ^ 53 * 2 ^ 30 * 2 ^ 120 := Nat.mul_le_mul_right _ hsz
      omega
    obtain ⟨s1, s2, _, _, _⟩ := fl53_spec (A * x.m * 2 ^ x.e.toNat) 1 ha
      (by omega) (by omega) hhigh
    have hr : ((A * x.m * 2 ^ x.e.toNat : ℕ) : ℚ) / ((1 : ℕ) : ℚ) =
        (A : ℚ) * x.val := by
      rw [val_nonneg_exp x he]
      push_cast
      ring
    rw [hr] at s1 s2
    exact ⟨s1, s2⟩
  · rw [fmulN, if_neg he]
    have hE : (-x.e).toNat ≤ 70 := by omega
    have hpow : (2 : ℕ) ^ (-x.e).toNat ≤ 2 ^ 70 := Nat.pow_le_pow_right (by norm_num) hE
    have ha : 0 < A * x.m := by positivity
    have hb : 0 < 2 ^ (-x.e).toNat := by positivity
    have hlow : 2 ^ (-x.e).toNat ≤ A * x.m * 2 ^ 120 := by
      have h1 : (2 : ℕ) ^ 70 ≤ 2 ^ 120 := by norm_num
      have h2 : 2 ^ 120 ≤ A * x.m * 2 ^ 120 := Nat.le_mul_of_pos_left _ ha
      omega
    have hhigh : A * x.m * 2 ^ 120 / 2 ^ (-x.e).toNat < 2 ^ 300 := by
      have h1 : A * x.m * 2 ^ 120 ≤ 2 ^ 30 * 2 ^ 53 * 2 ^ 120 :=
        Nat.mul_le_mul_right _ (Nat.mul_le_mul hA2 hm2)
      have h2 : (2 : ℕ) ^ 30 * 2 ^ 53 * 2 ^ 120 < 2 ^ 300 := by norm_num
      have h3 := Nat.div_le_self (A * x.m * 2 ^ 120) (2 ^ (-x.e).toNat)
      omega
    obtain ⟨s1, s2, _, _, _⟩ := fl53_spec (A * x.m) (2 ^ (-x.e).toNat) ha hb
      hlow hhigh
    have hr : ((A * x.m : ℕ) : ℚ) / ((2 ^ (-x.e).toNat : ℕ) : ℚ) =
        (A : ℚ) * x.val := by
      rw [val_neg_exp x he]
      push_cast
      ring
    rw [hr] at s1 s2
    exact ⟨s1, s2⟩

end TechlifeLED

namespace TechlifeLED

set_option maxRecDepth 8000 in
/-- The stored brightness float `fl53 v 100` (the value of Python
`v / 100.0` for an integer percent `v ∈ [1, 100]`): relative error at
most one part in `2^53`, 53-bit significand, exponent in `[-59, -52]`. -/
theorem bright_spec (v : Nat) (h1 : 1 ≤ v) (h2 : v ≤ 100) :
    ((v : ℚ) / 100) * (1 - (2 : ℚ) ^ (-53 : ℤ)) ≤ (fl53 v 100).val ∧
    (fl53 v 100).val ≤ ((v : ℚ) / 100) * (1 + (2 : ℚ) ^ (-53 : ℤ)) ∧
    0 < (fl53 v 100).m ∧ (fl53 v 100).m ≤ 2 ^ 53 ∧
    -59 ≤ (fl53 v 100).e ∧ (fl53 v 100).e ≤ -52 := by
  have hlow : 100 ≤ v * 2 ^ 120 := by
    have ha : (2 : ℕ) ^ 120 ≤ v * 2 ^ 120 := Nat.le_mul_of_pos_left _ (by omega)
    have hb : (100 : ℕ) ≤ 2 ^ 120 := by norm_num
    omega
  have hhigh : v * 2 ^ 120 / 100 < 2 ^ 300 := by
    have ha : v * 2 ^ 120 ≤ 100 * 2 ^ 120 := Nat.mul_le_mul_right _ h2
    have hb : (100 : ℕ) * 2 ^ 120 < 2 ^ 300 := by norm_num
    have hc := Nat.div_le_self (v * 2 ^ 120) 100
    omega
  obtain ⟨s1, s2, s3, s4, s5⟩ := fl53_spec v 100 (by omega) (by norm_num)
    hlow hhigh
  have hcast : ((100 : ℕ) : ℚ) = (100 : ℚ) := by norm_num
  rw [hcast] at s1 s2 s4 s5
  have hvq1 : (1 : ℚ) ≤ (v : ℚ) := by exact_mod_cast h1
  have hvq2 : (v : ℚ) ≤ 100 := by exact_mod_cast h2
  have hqpos : (0 : ℚ) < (v : ℚ) / 100 := by positivity
  refine ⟨s1, s2, ?_, s3, ?_, ?_⟩
  · by_contra hm0
    have hm0' : (fl53 v 100).m = 0 := by omega
    have hval0 : (fl53 v 100).val = 0 := by
      rw [PyFloat.val, hm0']
      norm_num
    rw [hval0] at s1
    have hf : (0 : ℚ) < (v : ℚ) / 100 * (1 - (2 : ℚ) ^ (-53 : ℤ)) := by
      apply mul_pos hqpos
      have : (2 : ℚ) ^ (-53 : ℤ) = 1 / 9007199254740992 := by norm_num
      rw [this]
      norm_num
    linarith
  · -- v/100 < 2^(e+53) and 2^(-7) < v/100 force -7 < e + 53
    have hlb : (2 : ℚ) ^ (-7 : ℤ) < (v : ℚ) / 100 := by
      have : (2 : ℚ) ^ (-7 : ℤ) = 1 / 128 := by norm_num
      rw [this, div_lt_div_iff₀ (by norm_num) (by norm_num)]
      linarith
    have := (zpow_lt_zpow_iff_right₀ (by norm_num : (1 : ℚ) < 2)).1
      (lt_trans hlb s5)
    omega
  · -- 2^(e+52) ≤ v/100 ≤ 1 forces e + 52 ≤ 0
    have hub : (v : ℚ) / 100 ≤ 1 := by
      rw [div_le_one (by norm_num)]
      exact hvq2
    have h0 : (2 : ℚ) ^ ((fl53 v 100).e + 52) ≤ (2 : ℚ) ^ (0 : ℤ) := by
      rw [zpow_zero]
      exact le_trans s4 hub
    have := (zpow_le_zpow_iff_right₀ (by norm_num : (1 : ℚ) < 2)).1 h0
    omega

end TechlifeLED

namespace TechlifeLED

/-- Python `int(round(100 * (v / 100.0)))` recovers the integer percent
`v` exactly, for every `v ∈ [0, 100]`: the accumulated relative error of
the two float operations is far below `1/2`. -/
theorem pct_round_trip (v : Nat) (hv : v ≤ 100) :
    fround (fmulN 100 (fl53 v 100)) = v := by
  rcases Nat.eq_zero_or_pos v with h0 | h1
  · subst h0
    rfl
  · obtain ⟨b1, b2, bm1, bm2, be1, be2⟩ := bright_spec v h1 hv
    obtain ⟨p1, p2⟩ := fmulN_spec 100 (fl53 v 100) (by norm_num) (by norm_num)
      bm1 bm2 (by omega) (by omega)
    apply fround_eq_of_close
    have hεnum : (2 : ℚ) ^ (-53 : ℤ) = (1 / 9007199254740992 : ℚ) := by norm_num
    have hεpos : (0 : ℚ) < (1 / 9007199254740992 : ℚ) := by norm_num
    rw [hεnum] at p1 p2 b1 b2
    push_cast at p1 p2
    have hvub : (v : ℚ) ≤ 100 := by exact_mod_cast hv
    have hvlb : (1 : ℚ) ≤ (v : ℚ) := by exact_mod_cast h1
    have hvq : (100 : ℚ) * ((v : ℚ) / 100) = (v : ℚ) := by
      field_simp
    have h1mε : (0 : ℚ) ≤ 1 - (1 / 9007199254740992 : ℚ) := by norm_num
    have h1pε : (0 : ℚ) ≤ 1 + (1 / 9007199254740992 : ℚ) := by norm_num
    have hlow2 : (v : ℚ) * (1 - (1 / 9007199254740992 : ℚ)) ^ 2 ≤
        (fmulN 100 (fl53 v 100)).val := by
      have hA1 : (100 : ℚ) * ((v : ℚ) / 100 * (1 - (1 / 9007199254740992 : ℚ))) *
          (1 - (1 / 9007199254740992 : ℚ)) ≤
          (100 : ℚ) * (fl53 v 100).val * (1 - (1 / 9007199254740992 : ℚ)) :=
        mul_le_mul_of_nonneg_right
          (mul_le_mul_of_nonneg_left b1 (by norm_num)) h1mε
      have he : (100 : ℚ) * ((v : ℚ) / 100 * (1 - (1 / 9007199254740992 : ℚ))) *
          (1 - (1 / 9007199254740992 : ℚ)) =
          (100 * ((v : ℚ) / 100)) * (1 - (1 / 9007199254740992 : ℚ)) ^ 2 := by ring
      rw [he, hvq] at hA1
      linarith
    have hup2 : (fmulN 100 (fl53 v 100)).val ≤
        (v : ℚ) * (1 + (1 / 9007199254740992 : ℚ)) ^ 2 := by
      have hA1 : (100 : ℚ) * (fl53 v 100).val * (1 + (1 / 9007199254740992 : ℚ)) ≤
          (100 : ℚ) * ((v : ℚ) / 100 * (1 + (1 / 9007199254740992 : ℚ))) *
          (1 + (1 / 9007199254740992 : ℚ)) :=
        mul_le_mul_of_nonneg_right
          (mul_le_mul_of_nonneg_left b2 (by norm_num)) h1pε
      have he : (100 : ℚ) * ((v : ℚ) / 100 * (1 + (1 / 9007199254740992 : ℚ))) *
          (1 + (1 / 9007199254740992 : ℚ)) =
          (100 * ((v : ℚ) / 100)) * (1 + (1 / 9007199254740992 : ℚ)) ^ 2 := by ring
      rw [he, hvq] at hA1
      linarith
    have e1 : (v : ℚ) * (1 - (1 / 9007199254740992 : ℚ)) ^ 2 =
        (v : ℚ) - 2 * ((v : ℚ) * (1 / 9007199254740992 : ℚ)) +
        (v : ℚ) * ((1 / 9007199254740992 : ℚ)) ^ 2 := by ring
    have e1' : (v : ℚ) * (1 + (1 / 9007199254740992 : ℚ)) ^ 2 =
        (v : ℚ) + 2 * ((v : ℚ) * (1 / 9007199254740992 : ℚ)) +
        (v : ℚ) * ((1 / 9007199254740992 : ℚ)) ^ 2 := by ring
    have e2 : (v : ℚ) * (1 / 9007199254740992 : ℚ) ≤ 100 * (1 / 9007199254740992 : ℚ) :=
      mul_le_mul_of_nonneg_right hvub (le_of_lt hεpos)
    have e3 : (0 : ℚ) ≤ (v : ℚ) * ((1 / 9007199254740992 : ℚ)) ^ 2 := by positivity
    have e4 : (100 : ℚ) * (1 / 9007199254740992 : ℚ) < 1 / 8 := by norm_num
    have e5 : (v : ℚ) * ((1 / 9007199254740992 : ℚ)) ^ 2 ≤
        100 * ((1 / 9007199254740992 : ℚ)) ^ 2 :=
      mul_le_mul_of_nonneg_right hvub (by positivity)
    have e6 : (100 : ℚ) * ((1 / 9007199254740992 : ℚ)) ^ 2 < 1 / 8 := by
      norm_num
    rw [abs_lt]
    constructor
    · rw [e1] at hlow2
      linarith
    · rw [e1'] at hup2
      linarith

end TechlifeLED

namespace TechlifeLED

/-- The float computation `int((x * 10000 * (v / 100.0)) // 255)` of the
source differs from the exact value `x * 100 * v / 255` by at most one
(and never exceeds it): the two float roundings move the product by less
than `1/2` in either direction. -/
theorem level_bounds (x v : Nat) (hx : x ≤ 255) (hv : v ≤ 100) :
    ffloordivN (fmulN (x * 10000) (fl53 v 100)) 255 ≤ x * 100 * v / 255 ∧
    x * 100 * v / 255 ≤ ffloordivN (fmulN (x * 10000) (fl53 v 100)) 255 + 1 := by
  rcases Nat.eq_zero_or_pos x with hx0 | hx1
  · subst hx0
    have hmul : fmulN (0 * 10000) (fl53 v 100) = ⟨0, 0⟩ := by
      rw [fmulN]
      split_ifs <;> simp [fl53]
    rw [hmul]
    simp [ffloordivN]
  rcases Nat.eq_zero_or_pos v with hv0 | hv1
  · subst hv0
    have hmul : fmulN (x * 10000) (fl53 0 100) = ⟨0, 0⟩ := by
      rw [show fl53 0 100 = ⟨0, 0⟩ from rfl, fmulN]
      simp [fl53]
    rw [hmul]
    simp [ffloordivN]
  obtain ⟨b1, b2, bm1, bm2, be1, be2⟩ := bright_spec v hv1 hv
  have hA1 : 0 < x * 10000 := by positivity
  have hA2 : x * 10000 ≤ 2 ^ 30 := by
    have h1 : x * 10000 ≤ 255 * 10000 := Nat.mul_le_mul_right _ hx
    have h2 : (255 : ℕ) * 10000 ≤ 2 ^ 30 := by norm_num
    omega
  obtain ⟨p1, p2⟩ := fmulN_spec (x * 10000) (fl53 v 100) hA1 hA2 bm1 bm2
    (by omega) (by omega)
  have hεnum : (2 : ℚ) ^ (-53 : ℤ) = (1 / 9007199254740992 : ℚ) := by norm_num
  rw [hεnum] at p1 p2 b1 b2
  push_cast at p1 p2
  have hT : ((x * 10000 : ℕ) : ℚ) * ((v : ℚ) / 100) = ((x * 100 * v : ℕ) : ℚ) := by
    push_cast
    ring
  have hTub : ((x * 100 * v : ℕ) : ℚ) ≤ 2550000 := by
    have h1 : x * 100 * v ≤ 255 * 100 * 100 :=
      Nat.mul_le_mul (Nat.mul_le_mul_right _ hx) hv
    exact_mod_cast le_trans (by exact_mod_cast h1) (by norm_num)
  have hTnn : (0 : ℚ) ≤ ((x * 100 * v : ℕ) : ℚ) := by positivity
  have h1mε : (0 : ℚ) ≤ 1 - (1 / 9007199254740992 : ℚ) := by norm_num
  have h1pε : (0 : ℚ) ≤ 1 + (1 / 9007199254740992 : ℚ) := by norm_num
  have hlow2 : ((x * 100 * v : ℕ) : ℚ) * (1 - (1 / 9007199254740992 : ℚ)) ^ 2 ≤
      (fmulN (x * 10000) (fl53 v 100)).val := by
    have hstep : ((x * 10000 : ℕ) : ℚ) *
        ((v : ℚ) / 100 * (1 - (1 / 9007199254740992 : ℚ))) *
        (1 - (1 / 9007199254740992 : ℚ)) ≤
        ((x * 10000 : ℕ) : ℚ) * (fl53 v 100).val *
        (1 - (1 / 9007199254740992 : ℚ)) :=
      mul_le_mul_of_nonneg_right
        (mul_le_mul_of_nonneg_left b1 (by positivity)) h1mε
    have he : ((x * 10000 : ℕ) : ℚ) *
        ((v : ℚ) / 100 * (1 - (1 / 9007199254740992 : ℚ))) *
        (1 - (1 / 9007199254740992 : ℚ)) =
        (((x * 10000 : ℕ) : ℚ) * ((v : ℚ) / 100)) *
        (1 - (1 / 9007199254740992 : ℚ)) ^ 2 := by ring
    rw [he, hT] at hstep
    have hp1 : ((x * 10000 : ℕ) : ℚ) * (fl53 v 100).val *
        (1 - (1 / 9007199254740992 : ℚ)) ≤
        (fmulN (x * 10000) (fl53 v 100)).val := by
      push_cast
      exact p1
    linarith
  have hup2 : (fmulN (x * 10000) (fl53 v 100)).val ≤
      ((x * 100 * v : ℕ) : ℚ) * (1 + (1 / 9007199254740992 : ℚ)) ^ 2 := by
    have hstep : ((x * 10000 : ℕ) : ℚ) * (fl53 v 100).val *
        (1 + (1 / 9007199254740992 : ℚ)) ≤
        ((x * 10000 : ℕ) : ℚ) *
        ((v : ℚ) / 100 * (1 + (1 / 9007199254740992 : ℚ))) *
        (1 + (1 / 9007199254740992 : ℚ)) :=
      mul_le_mul_of_nonneg_right
        (mul_le_mul_of_nonneg_left b2 (by positivity)) h1pε
    have he : ((x * 10000 : ℕ) : ℚ) *
        ((v : ℚ) / 100 * (1 + (1 / 9007199254740992 : ℚ))) *
        (1 + (1 / 9007199254740992 : ℚ)) =
        (((x * 10000 : ℕ) : ℚ) * ((v : ℚ) / 100)) *
        (1 + (1 / 9007199254740992 : ℚ)) ^ 2 := by ring
    rw [he, hT] at hstep
    have hp2 : (fmulN (x * 10000) (fl53 v 100)).val ≤
        ((x * 10000 : ℕ) : ℚ) * (fl53 v 100).val *
        (1 + (1 / 9007199254740992 : ℚ)) := by
      push_cast
      exact p2
    linarith
  have herr1 : ((x * 100 * v : ℕ) : ℚ) - 1 / 2 <
      (fmulN (x * 10000) (fl53 v 100)).val := by
    have he : ((x * 100 * v : ℕ) : ℚ) * (1 - (1 / 9007199254740992 : ℚ)) ^ 2 =
        ((x * 100 * v : ℕ) : ℚ) -
        ((x * 100 * v : ℕ) : ℚ) * (2 / 9007199254740992 -
          (1 / 9007199254740992 : ℚ) ^ 2) := by ring
    have hb : ((x * 100 * v : ℕ) : ℚ) * (2 / 9007199254740992 -
        (1 / 9007199254740992 : ℚ) ^ 2) ≤
        2550000 * (2 / 9007199254740992 - (1 / 9007199254740992 : ℚ) ^ 2) :=
      mul_le_mul_of_nonneg_right hTub (by norm_num)
    have hc : (2550000 : ℚ) * (2 / 9007199254740992 -
        (1 / 9007199254740992 : ℚ) ^ 2) < 1 / 2 := by norm_num
    rw [he] at hlow2
    linarith
  have herr2 : (fmulN (x * 10000) (fl53 v 100)).val <
      ((x * 100 * v : ℕ) : ℚ) + 1 / 2 := by
    have he : ((x * 100 * v : ℕ) : ℚ) * (1 + (1 / 9007199254740992 : ℚ)) ^ 2 =
        ((x * 100 * v : ℕ) : ℚ) +
        ((x * 100 * v : ℕ) : ℚ) * (2 / 9007199254740992 +
          (1 / 9007199254740992 : ℚ) ^ 2) := by ring
    have hb : ((x * 100 * v : ℕ) : ℚ) * (2 / 9007199254740992 +
        (1 / 9007199254740992 : ℚ) ^ 2) ≤
        2550000 * (2 / 9007199254740992 + (1 / 9007199254740992 : ℚ) ^ 2) :=
      mul_le_mul_of_nonneg_right hTub (by norm_num)
    have hc : (2550000 : ℚ) * (2 / 9007199254740992 +
        (1 / 9007199254740992 : ℚ) ^ 2) < 1 / 2 := by norm_num
    rw [he] at hup2
    linarith
  constructor
  · apply ffloordivN_le _ _ _ (by norm_num)
    have hdiv : x * 100 * v + 1 ≤ 255 * (x * 100 * v / 255) + 255 := by
      have hdm := Nat.div_add_mod (x * 100 * v) 255
      omega
    have h2 : ((x * 100 * v : ℕ) : ℚ) + 1 ≤
        255 * ((x * 100 * v / 255 : ℕ) : ℚ) + 255 := by
      exact_mod_cast hdiv
    push_cast
    push_cast at h2 herr2
    linarith
  · rcases Nat.eq_zero_or_pos (x * 100 * v / 255) with hj | hj
    · omega
    · have hjm : 255 * (x * 100 * v / 255) ≤ x * 100 * v := by
        have h := Nat.div_mul_le_self (x * 100 * v) 255
        omega
      have hle : x * 100 * v / 255 - 1 ≤
          ffloordivN (fmulN (x * 10000) (fl53 v 100)) 255 := by
        apply le_ffloordivN _ _ _ (by norm_num)
        have hc1 : ((x * 100 * v / 255 - 1 : ℕ) : ℚ) =
            ((x * 100 * v / 255 : ℕ) : ℚ) - 1 := by
          have h1j : 1 ≤ x * 100 * v / 255 := by omega
          exact_mod_cast (Nat.cast_sub h1j : ((x * 100 * v / 255 - 1 : ℕ) : ℚ) = _)
        have hc2 : (255 : ℚ) * ((x * 100 * v / 255 : ℕ) : ℚ) ≤
            ((x * 100 * v : ℕ) : ℚ) := by
          exact_mod_cast hjm
        push_cast
        push_cast at hc1 hc2 herr1
        rw [hc1]
        linarith
      omega

end TechlifeLED

namespace TechlifeLED

/-- The Set-Static-Color channel value fits its `u16` field. -/
theorem level_le_10000 (x v : Nat) (hx : x ≤ 255) (hv : v ≤ 100) :
    ffloordivN (fmulN (x * 10000) (fl53 v 100)) 255 ≤ 10000 := by
  have h1 := (level_bounds x v hx hv).1
  have h2 : x * 100 * v ≤ 2550000 := by
    calc x * 100 * v ≤ 255 * 100 * v := Nat.mul_le_mul_right _ (Nat.mul_le_mul_right _ hx)
      _ ≤ 255 * 100 * 100 := Nat.mul_le_mul_left _ hv
      _ = 2550000 := by norm_num
  have h3 : x * 100 * v / 255 ≤ 2550000 / 255 := Nat.div_le_div_right h2
  have h4 : (2550000 : ℕ) / 255 = 10000 := by norm_num
  omega

/-- On a state whose brightness is the stored float of an integer
percent `v ∈ [0, 100]` and whose channels are 8-bit, `_apply_static`
succeeds and the emitted frame carries the three rescaled channels in
its first three `u16` fields and `v` in its sixth. -/
theorem apply_static_fields (s : LEDState) (v : Nat) (hv : v ≤ 100)
    (hb : s._brightness = fl53 v 100)
    (h1 : s._color.1 ≤ 255) (h2 : s._color.2.1 ≤ 255) (h3 : s._color.2.2 ≤ 255) :
    ∃ f, _apply_static s = some f ∧ f.length = 16 ∧
      getU16 f 1 = ffloordivN (fmulN (s._color.1 * 10000) (fl53 v 100)) 255 ∧
      getU16 f 3 = ffloordivN (fmulN (s._color.2.1 * 10000) (fl53 v 100)) 255 ∧
      getU16 f 5 = ffloordivN (fmulN (s._color.2.2 * 10000) (fl53 v 100)) 255 ∧
      getU16 f 11 = v := by
  have hl1 := level_le_10000 s._color.1 v h1 hv
  have hl2 := level_le_10000 s._color.2.1 v h2 hv
  have hl3 := level_le_10000 s._color.2.2 v h3 hv
  have hc : (0x28 : Nat) ≤ 255 ∧
      ffloordivN (fmulN (s._color.1 * 10000) (fl53 v 100)) 255 ≤ 65535 ∧
      ffloordivN (fmulN (s._color.2.1 * 10000) (fl53 v 100)) 255 ≤ 65535 ∧
      ffloordivN (fmulN (s._color.2.2 * 10000) (fl53 v 100)) 255 ≤ 65535 ∧
      (0 : Nat) ≤ 65535 ∧ (0 : Nat) ≤ 65535 ∧ v ≤ 65535 ∧
      (0x0F : Nat) ≤ 255 ∧ (0 : Nat) ≤ 255 ∧ (0x29 : Nat) ≤ 255 :=
    ⟨by norm_num, by omega, by omega, by omega, by norm_num, by norm_num,
      by omega, by norm_num, by norm_num, by norm_num⟩
  have heq : _apply_static s = some (_send_with_checksum
      ([0x28] ++ le16 (ffloordivN (fmulN (s._color.1 * 10000) (fl53 v 100)) 255) ++
        le16 (ffloordivN (fmulN (s._color.2.1 * 10000) (fl53 v 100)) 255) ++
        le16 (ffloordivN (fmulN (s._color.2.2 * 10000) (fl53 v 100)) 255) ++
        le16 0 ++ le16 0 ++ le16 v ++ [0x0F, 0, 0x29])) := by
    simp only [_apply_static, hb, pct_round_trip v hv]
    rw [FRAME_pack, if_pos hc]
    rfl
  refine ⟨_, heq, apply_static_length heq, ?_, ?_, ?_, ?_⟩
  · show ffloordivN (fmulN (s._color.1 * 10000) (fl53 v 100)) 255 % 256 +
      256 * (ffloordivN (fmulN (s._color.1 * 10000) (fl53 v 100)) 255 / 256 % 256) = _
    omega
  · show ffloordivN (fmulN (s._color.2.1 * 10000) (fl53 v 100)) 255 % 256 +
      256 * (ffloordivN (fmulN (s._color.2.1 * 10000) (fl53 v 100)) 255 / 256 % 256) = _
    omega
  · show ffloordivN (fmulN (s._color.2.2 * 10000) (fl53 v 100)) 255 % 256 +
      256 * (ffloordivN (fmulN (s._color.2.2 * 10000) (fl53 v 100)) 255 / 256 % 256) = _
    omega
  · show v % 256 + 256 * (v / 256 % 256) = v
    omega

end TechlifeLED

namespace TechlifeLED

set_option maxRecDepth 8000 in
/-- The initial state satisfies the reachable-state invariant: the
stored `1.0` is the binary64 value of `100 / 100`. -/
theorem inv_init : Inv init :=
  ⟨⟨100, by norm_num, by decide⟩, by decide, by decide, by decide,
    by decide, by decide⟩

/-- C5: `get_brightness` immediately after `set_brightness p` returns
`p` clamped into `[0, 100]` — `p` itself for `p ∈ [0, 100]`, `0` for
negative `p`, `100` for `p > 100` — and `set_brightness` succeeds
(raises nothing) on every integer input. -/
theorem c5_brightness_roundtrip (s : LEDState) (p : Int)
    (h1 : s._color.1 ≤ 255) (h2 : s._color.2.1 ≤ 255) (h3 : s._color.2.2 ≤ 255) :
    ((set_brightness s p).map fun r => (get_brightness r.1 : Int)) =
      some (max 0 (min 100 p)) := by
  have hv : (max 0 (min 100 p)).toNat ≤ 100 := by omega
  obtain ⟨f, hf, -, -, -, -, -⟩ := apply_static_fields
    { s with _brightness := fl53 (max 0 (min 100 p)).toNat 100 }
    (max 0 (min 100 p)).toNat hv rfl h1 h2 h3
  simp only [set_brightness, hf, Option.map_some']
  have hg : get_brightness
      { s with _brightness := fl53 (max 0 (min 100 p)).toNat 100 } =
      (max 0 (min 100 p)).toNat := pct_round_trip _ hv
  rw [hg]
  exact congrArg some (by omega)

/-- Witness for C5 at `p = 250` from the initial state: the stored and
returned percent is 100. -/
theorem c5_brightness_roundtrip_witness :
    ((set_brightness init 250).map fun r => (get_brightness r.1 : Int)) =
      some (max 0 (min 100 250)) :=
  c5_brightness_roundtrip init 250 (by decide) (by decide) (by decide)

set_option maxRecDepth 400000 in
/-- C3, counterexample: after `set_color("#990000")` (channels
`(153, 0, 0)`) and `set_brightness(29)`, the emitted red field is 1739,
not `floor(153 * 10000 * (29/100) / 255) = 1740` as the claimed exact
formula demands: `29 / 100.0` rounds below `29/100` in binary64 and the
product then floors one lower. -/
theorem c3_counterexample :
    ¬ (((set_brightness (set_color init (some (153, 0, 0)) "#990000").1 29).map
        fun r => getU16 r.2 1) = some (153 * 10000 * 29 / 100 / 255)) := by
  decide

end TechlifeLED

namespace TechlifeLED

set_option maxRecDepth 400000 in
/-- C3, amended: the Set-Static-Color frame carries, for each channel
`x`, the source's binary64 evaluation of
`floor(x * 10000 * (v/100) / 255)`, which equals the exact value
`x * 10000 * v / 100 / 255` or that value minus one (the float rounding
can lose a single unit, e.g. channel 153 at 29 percent); the
`brightness_pct` field is exactly `round(100 * (v/100)) = v`; and
`setColor("#ff0000")` followed by `setBrightness(50)` emits red 5000,
green 0, blue 0, brightness 50. -/
theorem c3_static_color_scaling (s : LEDState) (v : Nat) (hv : v ≤ 100)
    (hb : s._brightness = fl53 v 100)
    (h1 : s._color.1 ≤ 255) (h2 : s._color.2.1 ≤ 255) (h3 : s._color.2.2 ≤ 255) :
    (∃ f, _apply_static s = some f ∧
      getU16 f 1 ≤ s._color.1 * 10000 * v / 100 / 255 ∧
      s._color.1 * 10000 * v / 100 / 255 ≤ getU16 f 1 + 1 ∧
      getU16 f 3 ≤ s._color.2.1 * 10000 * v / 100 / 255 ∧
      s._color.2.1 * 10000 * v / 100 / 255 ≤ getU16 f 3 + 1 ∧
      getU16 f 5 ≤ s._color.2.2 * 10000 * v / 100 / 255 ∧
      s._color.2.2 * 10000 * v / 100 / 255 ≤ getU16 f 5 + 1 ∧
      getU16 f 11 = v) ∧
    ((set_brightness (set_color init (some (255, 0, 0)) "#ff0000").1 50).map
      fun r => (getU16 r.2 1, getU16 r.2 3, getU16 r.2 5, getU16 r.2 11)) =
      some (5000, 0, 0, 50) := by
  constructor
  · obtain ⟨f, hf, -, g1, g3, g5, g11⟩ := apply_static_fields s v hv hb h1 h2 h3
    have hdiv : ∀ x : Nat, x * 10000 * v / 100 / 255 = x * 100 * v / 255 := by
      intro x
      have he : x * 10000 * v = x * 100 * v * 100 := by ring
      rw [he, Nat.mul_div_cancel _ (by norm_num : (0 : ℕ) < 100)]
    refine ⟨f, hf, ?_, ?_, ?_, ?_, ?_, ?_, g11⟩
    · rw [g1, hdiv]; exact (level_bounds s._color.1 v h1 hv).1
    · rw [g1, hdiv]; exact (level_bounds s._color.1 v h1 hv).2
    · rw [g3, hdiv]; exact (level_bounds s._color.2.1 v h2 hv).1
    · rw [g3, hdiv]; exact (level_bounds s._color.2.1 v h2 hv).2
    · rw [g5, hdiv]; exact (level_bounds s._color.2.2 v h3 hv).1
    · rw [g5, hdiv]; exact (level_bounds s._color.2.2 v h3 hv).2
  · decide

/-- Witness for C3's amended theorem: the concrete
`#ff0000` / 50-percent scenario. -/
theorem c3_static_color_scaling_witness :
    50 ≤ 100 ∧
    ((set_brightness (set_color init (some (255, 0, 0)) "#ff0000").1 50).map
      fun r => (getU16 r.2 1, getU16 r.2 3, getU16 r.2 5, getU16 r.2 11)) =
      some (5000, 0, 0, 50) :=
  ⟨by norm_num,
    (c3_static_color_scaling
      { init with _color := (153, 0, 0), _brightness := fl53 29 100 }
      29 (by norm_num) rfl (by decide) (by decide) (by decide)).2⟩

end TechlifeLED

namespace TechlifeLED

/-- Every operation preserves the reachable-state invariant (so `Inv`
characterizes the states reachable from `init`). -/
theorem inv_preserved (s : LEDState) (p sp : Int) (eb : Bool)
    (c : Nat × Nat × Nat) (inp : String) (h : Inv s)
    (hc1 : c.1 ≤ 255) (hc2 : c.2.1 ≤ 255) (hc3 : c.2.2 ≤ 255) :
    (∀ r, powerOn s = some r → Inv r.1) ∧
    (∀ r, off s = some r → Inv r.1) ∧
    (∀ r, update s = some r → Inv r.1) ∧
    (∀ r, animate s eb = some r → Inv r.1) ∧
    (∀ r, set_brightness s p = some r → Inv r.1) ∧
    Inv (set_animation_speed s sp) ∧
    Inv (set_color s (some c) inp).1 := by
  obtain ⟨⟨v, hv, hb⟩, h1, h2, h3, hs1, hs2⟩ := h
  have hInv : Inv s := ⟨⟨v, hv, hb⟩, h1, h2, h3, hs1, hs2⟩
  refine ⟨?_, ?_, ?_, ?_, ?_, ?_, ?_⟩
  · intro r hr; cases hr; exact ⟨⟨v, hv, hb⟩, h1, h2, h3, hs1, hs2⟩
  · intro r hr; cases hr; exact ⟨⟨v, hv, hb⟩, h1, h2, h3, hs1, hs2⟩
  · intro r hr; cases hr; exact ⟨⟨v, hv, hb⟩, h1, h2, h3, hs1, hs2⟩
  · intro r hr
    cases eb with
    | true =>
      simp only [animate, if_true] at hr
      rcases Option.map_eq_some'.1 hr with ⟨g, hg, rfl⟩
      exact hInv
    | false =>
      simp only [animate, if_false] at hr
      rcases Option.map_eq_some'.1 hr with ⟨g, hg, rfl⟩
      exact hInv
  · intro r hr
    simp only [set_brightness] at hr
    rcases Option.map_eq_some'.1 hr with ⟨g, hg, rfl⟩
    exact ⟨⟨(max 0 (min 100 p)).toNat, by omega, rfl⟩, h1, h2, h3, hs1, hs2⟩
  · exact ⟨⟨v, hv, hb⟩, h1, h2, h3,
      by show 1 ≤ (max 1 (min 100 sp)).toNat; omega,
      by show (max 1 (min 100 sp)).toNat ≤ 100; omega⟩
  · exact ⟨⟨v, hv, hb⟩, hc1, hc2, hc3, hs1, hs2⟩

/-- C9: in every reachable state, each value packed into a frame fits
its declared field width — the rescaled channels lie in `[0, 10000]`,
the brightness percent in `[0, 100]`, the device speed in `[0, 252]` —
and consequently frame construction is total: no operation ever fails
with a range error. -/
theorem c9_field_ranges (s : LEDState) (p : Int) (c : Nat × Nat × Nat)
    (inp : String) (eb : Bool) (h : Inv s)
    (hc1 : c.1 ≤ 255) (hc2 : c.2.1 ≤ 255) (hc3 : c.2.2 ≤ 255) :
    ffloordivN (fmulN (s._color.1 * 10000) s._brightness) 255 ≤ 10000 ∧
    ffloordivN (fmulN (s._color.2.1 * 10000) s._brightness) 255 ≤ 10000 ∧
    ffloordivN (fmulN (s._color.2.2 * 10000) s._brightness) 255 ≤ 10000 ∧
    fround (fmulN 100 s._brightness) ≤ 100 ∧
    (100 - s._animation_speed) * 255 / 100 ≤ 252 ∧
    (_apply_static s).isSome = true ∧
    (set_brightness s p).isSome = true ∧
    (animate s eb).isSome = true ∧
    (powerOn s).isSome = true ∧ (off s).isSome = true ∧
    (update s).isSome = true ∧
    (set_color s (some c) inp).2 = .ok (_apply_static { s with _color := c }) ∧
    (_apply_static { s with _color := c }).isSome = true := by
  obtain ⟨⟨v, hv, hb⟩, h1, h2, h3, hs1, hs2⟩ := h
  obtain ⟨f, hf, -, -, -, -, -⟩ := apply_static_fields s v hv hb h1 h2 h3
  obtain ⟨g, hg, -, -, -, -, -⟩ := apply_static_fields
    { s with _brightness := fl53 (max 0 (min 100 p)).toNat 100 }
    (max 0 (min 100 p)).toNat (by omega) rfl h1 h2 h3
  obtain ⟨w, hw, -, -, -, -, -⟩ := apply_static_fields
    { s with _color := c } v hv hb hc1 hc2 hc3
  refine ⟨?_, ?_, ?_, ?_, ?_, ?_, ?_, ?_, rfl, rfl, rfl, rfl, ?_⟩
  · rw [hb]; exact level_le_10000 _ v h1 hv
  · rw [hb]; exact level_le_10000 _ v h2 hv
  · rw [hb]; exact level_le_10000 _ v h3 hv
  · rw [hb, pct_round_trip v hv]; exact hv
  · have hm : (100 - s._animation_speed) * 255 ≤ 99 * 255 :=
      Nat.mul_le_mul_right _ (by omega)
    omega
  · rw [hf]; rfl
  · simp only [set_brightness, hg, Option.map_some', Option.isSome_some]
  · cases eb with
    | true =>
      have ha := animate_speed_frame s
      rcases Option.map_eq_some'.1 ha with ⟨r, hr, -⟩
      rw [hr]
      rfl
    | false =>
      have he : animate s false = (_apply_static s).map fun k => (s, k) := rfl
      rw [he, hf]
      rfl
  · rw [hw]; rfl

/-- Witness for C9 at the initial state: `powerOn` (and every other
operation) succeeds there. -/
theorem c9_field_ranges_witness : (powerOn init).isSome = true :=
  (c9_field_ranges init 0 (0, 0, 0) "" true inv_init
    (by norm_num) (by norm_num) (by norm_num)).2.2.2.2.2.2.2.2.1

end TechlifeLED
